import Mathlib

/-!
A verification development for `src/docker/reduce_results.py`: the function
`reduce_results` reads a combined security-scan JSON file, normalizes its
records (generic rule-match findings and package-vulnerability records) into
one summary structure, and writes two report files.

The embedding models parsed JSON values as the inductive `Json`, and the
Python dynamic operations the source uses (`dict.get`, `len`, iteration,
`dict.items()`, dict-key assignment) as functions into `Except PyErr _`,
since on values of the wrong shape those operations raise `AttributeError`
or `TypeError` in Python.  File reading, `json.loads`, and the current
timestamp are external inputs and are passed in as parameters; writes and
log lines are recorded as an `Effect` trace.
-/

/-- A parsed JSON document, as produced by Python's `json.load`.  Objects
keep insertion order, as Python dicts do; numbers are modelled as integers
(the source never computes with numeric field values, it only copies them). -/
inductive Json where
  | null
  | bool (b : Bool)
  | num (n : Int)
  | str (s : String)
  | arr (xs : List Json)
  | obj (kvs : List (String × Json))

/-- The Python exceptions the body of `reduce_results` can raise, plus
`valueError` for a failing `json.loads` on the double-encoded path. -/
inductive PyErr where
  | typeError
  | attributeError
  | valueError
deriving Repr, DecidableEq

/-- Observable side effects of `reduce_results`, in order: log lines,
directory creation, and file writes (by file name). -/
inductive Effect where
  | logInfo
  | logError
  | logWarning
  | mkdir
  | writeFile (name : String)
deriving Repr, DecidableEq

/-- Python `d.get(k, default)` on a value that must be a dict: on a non-dict
receiver Python raises `AttributeError` (no `.get` attribute). -/
def Json.pyGet (v : Json) (k : String) (d : Json) : Except PyErr Json :=
  match v with
  | .obj kvs => .ok ((kvs.lookup k).getD d)
  | _ => .error .attributeError

/-- `kvs.get k default` where the receiver is already known to be a dict
(such as `result` after the `isinstance(result, dict)` guard). -/
def objGet (kvs : List (String × Json)) (k : String) (d : Json) : Json :=
  (kvs.lookup k).getD d

/-- Python `len(v)`: defined on strings, lists and dicts, `TypeError`
otherwise (e.g. `len(None)`, `len(5)`). -/
def Json.pyLen : Json → Except PyErr Nat
  | .str s => .ok s.length
  | .arr xs => .ok xs.length
  | .obj kvs => .ok kvs.length
  | _ => .error .typeError

/-- Python `for x in v`: a list yields its elements, a string its
one-character substrings, a dict its keys; otherwise `TypeError`. -/
def Json.pyIter : Json → Except PyErr (List Json)
  | .str s => .ok (s.toList.map (fun c => Json.str (String.singleton c)))
  | .arr xs => .ok xs
  | .obj kvs => .ok (kvs.map (fun kv => Json.str kv.1))
  | _ => .error .typeError

/-- Python `v.items()`: defined only on dicts, `AttributeError` otherwise. -/
def Json.pyItems : Json → Except PyErr (List (String × Json))
  | .obj kvs => .ok kvs
  | _ => .error .attributeError

/-- Python's hashability check performed by `d[key] = value`: lists and
dicts are unhashable and raise `TypeError` when used as dict keys. -/
def checkHashable : Json → Except PyErr Unit
  | .arr _ => .error .typeError
  | .obj _ => .error .typeError
  | _ => .ok ()

/-- The equality class Python's dict-key lookup uses for the hashable JSON
scalars: `None` is its own class, strings compare by value, and booleans
compare numerically with numbers (`True == 1`, `False == 0`). -/
def Json.keyRep : Json → Option (Int ⊕ String ⊕ Unit)
  | .null => some (Sum.inr (Sum.inr ()))
  | .bool true => some (Sum.inl 1)
  | .bool false => some (Sum.inl 0)
  | .num n => some (Sum.inl n)
  | .str s => some (Sum.inr (Sum.inl s))
  | _ => none

/-- Python `==` as used for dict-key identity on hashable scalars. -/
def pyKeyEq (a b : Json) : Bool :=
  match a.keyRep, b.keyRep with
  | some x, some y => decide (x = y)
  | _, _ => false

/-- `rule_name == 'package_scan'` (line 59): Python `==` against a string
literal is `False` on every non-string value. -/
def isPackageScan : Json → Bool
  | .str s => s == "package_scan"
  | _ => false

/-- The `summary['vulnerability_summary']` dict built at lines 78-85: the
six severity buckets copied from `metadata.get(...)` with default `0`. -/
structure VulnSummary where
  info : Json
  low : Json
  moderate : Json
  high : Json
  critical : Json
  total : Json

/-- The in-memory `summary` dict (lines 33-37): `vulnerability_summary` is
absent until a `package_scan` record is processed, hence the `Option`. -/
structure Summary where
  total_findings : Nat
  findings_by_rule : List (Json × Nat)
  all_matches : List Json
  vulnerability_summary : Option VulnSummary

/-- The summary as first created (lines 33-37). -/
def initSummary : Summary :=
  { total_findings := 0, findings_by_rule := [], all_matches := [],
    vulnerability_summary := none }

/-- Python dict assignment `d[k] = v` on an insertion-ordered dict: if some
stored key is `==`-equal to `k`, its value is replaced in place (the stored
key object is kept); otherwise the pair is appended. -/
def dictSet (d : List (Json × Nat)) (k : Json) (v : Nat) : List (Json × Nat) :=
  match d with
  | [] => [(k, v)]
  | (k', v') :: rest =>
    if pyKeyEq k' k then (k', v) :: rest else (k', v') :: dictSet rest k v

/-- Python dict lookup `d[k]` as an `Option`, with the same key equality. -/
def dictGet (d : List (Json × Nat)) (k : Json) : Option Nat :=
  match d with
  | [] => none
  | (k', v') :: rest => if pyKeyEq k' k then some v' else dictGet rest k

/-- The element-wise loop bodies at lines 61-74 and 88-97, as a fallible
map: Python appends each built record in turn and an exception thrown
mid-loop discards the whole summary, so collecting the records first is
observationally the same. -/
def mapExceptList (f : α → Except PyErr β) : List α → Except PyErr (List β)
  | [] => .ok []
  | a :: as =>
    match f a with
    | .error e => .error e
    | .ok b =>
      match mapExceptList f as with
      | .error e => .error e
      | .ok bs => .ok (b :: bs)

/-- Lines 89-96: build one simplified finding record from one element of
`matches`.  Every `.get` raises `AttributeError` when its receiver is not a
dict (`match` itself, or a present non-dict `start`/`extra`). -/
def processMatch (rule_name : Json) (m : Json) : Except PyErr Json := do
  let path ← m.pyGet "path" (.str "")
  let start ← m.pyGet "start" (.obj [])
  let line ← start.pyGet "line" (.num 0)
  let extra1 ← m.pyGet "extra" (.obj [])
  let snippet ← extra1.pyGet "lines" (.str "")
  let extra2 ← m.pyGet "extra" (.obj [])
  let message ← extra2.pyGet "message" (.str "")
  .ok (.obj [("rule", rule_name), ("path", path), ("line", line),
             ("snippet", snippet), ("message", message),
             ("type", .str "finding")])

/-- Lines 62-73: build one simplified vulnerability record from one entry of
the `vulnerabilities` dict. -/
def processVuln (rule_name : Json) (pkg : String) (vd : Json) :
    Except PyErr Json := do
  let severity ← vd.pyGet "severity" (.str "")
  let isDirect ← vd.pyGet "isDirect" (.bool false)
  let via ← vd.pyGet "via" (.arr [])
  let effects ← vd.pyGet "effects" (.arr [])
  let range ← vd.pyGet "range" (.str "")
  let nodes ← vd.pyGet "nodes" (.arr [])
  let fixAvailable ← vd.pyGet "fixAvailable" (.bool false)
  .ok (.obj [("rule", rule_name), ("package", .str pkg),
             ("severity", severity), ("is_direct", isDirect), ("via", via),
             ("effects", effects), ("version_range", range),
             ("nodes", nodes), ("fix_available", fixAvailable),
             ("type", .str "vulnerability")])

/-- Lines 46-97, one iteration of `for result in combined_data`: a non-dict
element logs a warning and is skipped; a dict element updates the summary
and may raise (a propagated exception) on mistyped fields.  In Python the
appends to `all_matches` happen one at a time, but an exception discards the
whole summary, so appending the `mapM` result is observationally the same. -/
def processResult (s : Summary) (result : Json) :
    List Effect × Except PyErr Summary :=
  match result with
  | .obj kvs =>
    ⟨[], do
      let rule_name := objGet kvs "rulename" (.str "unknown")
      let matchesVal := objGet kvs "matches" (.arr [])
      let n ← matchesVal.pyLen
      let _ ← checkHashable rule_name
      let s := { s with
                  findings_by_rule := dictSet s.findings_by_rule rule_name n,
                  total_findings := s.total_findings + n }
      if isPackageScan rule_name then do
        let vulnerabilities := objGet kvs "vulnerabilities" (.obj [])
        let items ← vulnerabilities.pyItems
        let vmatches ← mapExceptList (fun kv => processVuln rule_name kv.1 kv.2) items
        let s := { s with all_matches := s.all_matches ++ vmatches }
        let md := objGet kvs "metadata" (.obj [])
        let mdv ← md.pyGet "vulnerabilities" (.obj [])
        let info ← mdv.pyGet "info" (.num 0)
        let low ← mdv.pyGet "low" (.num 0)
        let moderate ← mdv.pyGet "moderate" (.num 0)
        let high ← mdv.pyGet "high" (.num 0)
        let critical ← mdv.pyGet "critical" (.num 0)
        let total ← mdv.pyGet "total" (.num 0)
        let vs := VulnSummary.mk info low moderate high critical total
        .ok { s with vulnerability_summary := some vs }
      else do
        let elems ← matchesVal.pyIter
        let fmatches ← mapExceptList (processMatch rule_name) elems
        .ok { s with all_matches := s.all_matches ++ fmatches }⟩
  | _ => ([Effect.logWarning], .ok s)

/-- The whole `for result in combined_data` loop: effects accumulate in
order; an exception from one record aborts the remaining ones. -/
def processList (s : Summary) : List Json → List Effect × Except PyErr Summary
  | [] => ([], .ok s)
  | r :: rs =>
    match processResult s r with
    | (effs, .error e) => (effs, .error e)
    | (effs, .ok s') =>
      let (effs2, res) := processList s' rs
      (effs ++ effs2, res)

/-- Lines 43-44: a non-list value is wrapped into a one-element list. -/
def listify : Json → List Json
  | .arr xs => xs
  | v => [v]

/-- Lines 33-97 after the string-unwrap step: build the summary from the
decoded top-level value. -/
def reduceCore (v : Json) : List Effect × Except PyErr Summary :=
  processList initSummary (listify v)

/-- Lines 40-41: `if isinstance(combined_data, str): combined_data =
json.loads(combined_data)` — a string top-level value is decoded again,
exactly once.  `loads` is the model of `json.loads`, passed as a parameter
(it is a Python library function, external to this file's source). -/
def unwrapStr (loads : String → Except PyErr Json) (v : Json) :
    Except PyErr Json :=
  match v with
  | .str s => loads s
  | v => .ok v

/-- Lines 32-97: the summary-building phase on the value returned by
`json.load`, including the second-decode step for string payloads.  A
failing inner `json.loads` propagates (it is outside the `try` block). -/
def reduceLoaded (loads : String → Except PyErr Json) (v : Json) :
    List Effect × Except PyErr Summary :=
  match unwrapStr loads v with
  | .error e => ([], .error e)
  | .ok w => reduceCore w

/-- Python `s.split(c)` at the character-list level: splitting on a
one-character separator, keeping empty pieces, never returning `[]`. -/
def splitOnChar (c : Char) : List Char → List (List Char)
  | [] => [[]]
  | x :: xs =>
    if x = c then [] :: splitOnChar c xs
    else
      match splitOnChar c xs with
      | [] => [[x]]
      | h :: t => (x :: h) :: t

/-- `os.path.basename` (POSIX): everything after the last `/`. -/
def pyBasename (p : String) : String :=
  String.mk ((splitOnChar '/' p.data).getLastD [])

/-- Lines 21-22: `server_name = os.path.basename(path).split('_')[0]`. -/
def serverName (p : String) : String :=
  String.mk ((splitOnChar '_' (pyBasename p).data).headD [])

/-- The whole of `reduce_results` (lines 14-141) as a trace-producing
function.  External inputs are parameters: `ts` the formatted timestamp,
`loads` the `json.loads` model, and `readResult` the outcome of the guarded
`open`/`json.load` (lines 25-30) — `.error` when the file is missing,
unreadable, or not valid JSON.  A read failure is logged and re-raised
before any directory or file is touched; on success the output directory is
created and the two report files are written, named from the server name
and timestamp. -/
def reduce_results (path ts : String) (loads : String → Except PyErr Json)
    (readResult : Except PyErr Json) : List Effect × Except PyErr Summary :=
  let sn := serverName path
  match readResult with
  | .error e => ([.logInfo, .logError], .error e)
  | .ok v =>
    match reduceLoaded loads v with
    | (effs, .error e) => (.logInfo :: effs, .error e)
    | (effs, .ok s) =>
      (.logInfo :: effs ++
        [.mkdir, .writeFile (sn ++ "_" ++ ts ++ "_reduced.json"),
         .writeFile (sn ++ "_" ++ ts ++ "_summary.txt"), .logInfo],
       .ok s)

mutual
/-- A plain JSON serializer (the shape `json.dumps` produces), used to state
the double-encoding claim: the file whose top-level value is the *string*
`Json.serialize d` is the double-encoded form of the file whose top-level
value is `d`. -/
def Json.serialize : Json → String
  | .null => "null"
  | .bool true => "true"
  | .bool false => "false"
  | .num n => toString n
  | .str s => "\"" ++ s ++ "\""
  | .arr xs => "[" ++ Json.serializeElems xs ++ "]"
  | .obj kvs => "\x7b" ++ Json.serializeMembers kvs ++ "\x7d"

def Json.serializeElems : List Json → String
  | [] => ""
  | [x] => x.serialize
  | x :: xs => x.serialize ++ ", " ++ Json.serializeElems xs

def Json.serializeMembers : List (String × Json) → String
  | [] => ""
  | [(k, v)] => "\"" ++ k ++ "\": " ++ v.serialize
  | (k, v) :: kvs =>
    "\"" ++ k ++ "\": " ++ v.serialize ++ ", " ++ Json.serializeMembers kvs
end

/-! ## Specification-side functions

The functions below restate, directly over the input document, what each
claim says the summary should contain.  They are total: where the code
would raise, they return a default — the theorems only compare them to the
code on runs that ended in `.ok`, where the two agree. -/

/-- Total counterpart of `Json.pyGet`: default instead of `AttributeError`. -/
def getOr (v : Json) (k : String) (d : Json) : Json :=
  match v with
  | .obj kvs => objGet kvs k d
  | _ => d

/-- Total counterpart of `Json.pyLen`: `0` instead of `TypeError`. -/
def lenD : Json → Nat
  | .str s => s.length
  | .arr xs => xs.length
  | .obj kvs => kvs.length
  | _ => 0

/-- Total counterpart of `Json.pyIter`: `[]` instead of `TypeError`. -/
def iterD : Json → List Json
  | .str s => s.toList.map (fun c => Json.str (String.singleton c))
  | .arr xs => xs
  | .obj kvs => kvs.map (fun kv => Json.str kv.1)
  | _ => []

/-- Total counterpart of `Json.pyItems`: `[]` instead of `AttributeError`. -/
def itemsD : Json → List (String × Json)
  | .obj kvs => kvs
  | _ => []

/-- The `matches` list of a result entry, defaulting to the empty list
(`result.get('matches', [])`); the empty list also stands in for non-dict
entries, which contribute nothing. -/
def matchesOf : Json → Json
  | .obj kvs => objGet kvs "matches" (.arr [])
  | _ => .arr []

/-- The rule name of a result entry (`result.get('rulename', 'unknown')`). -/
def ruleOf : Json → Json
  | .obj kvs => objGet kvs "rulename" (.str "unknown")
  | _ => .null

/-- Claim C1's sum: `len(matches)` totalled over all entries (`0` for
non-dict entries, whose `matches` is taken as `[]`). -/
def specTotal (rs : List Json) : Nat :=
  (rs.map (fun r => lenD (matchesOf r))).sum

/-- Claim C2's per-entry count: vulnerabilities for a `package_scan` entry,
iterated matches otherwise, `0` for a non-dict entry. -/
def specCount1 : Json → Nat
  | .obj kvs =>
    if isPackageScan (objGet kvs "rulename" (.str "unknown")) then
      (itemsD (objGet kvs "vulnerabilities" (.obj []))).length
    else
      (iterD (objGet kvs "matches" (.arr []))).length
  | _ => 0

/-- The simplified finding record of lines 89-96, built totally. -/
def findingD (rule_name m : Json) : Json :=
  .obj [("rule", rule_name), ("path", getOr m "path" (.str "")),
        ("line", getOr (getOr m "start" (.obj [])) "line" (.num 0)),
        ("snippet", getOr (getOr m "extra" (.obj [])) "lines" (.str "")),
        ("message", getOr (getOr m "extra" (.obj [])) "message" (.str "")),
        ("type", .str "finding")]

/-- The simplified vulnerability record of lines 62-73, built totally. -/
def vulnD (rule_name : Json) (pkg : String) (vd : Json) : Json :=
  .obj [("rule", rule_name), ("package", .str pkg),
        ("severity", getOr vd "severity" (.str "")),
        ("is_direct", getOr vd "isDirect" (.bool false)),
        ("via", getOr vd "via" (.arr [])),
        ("effects", getOr vd "effects" (.arr [])),
        ("version_range", getOr vd "range" (.str "")),
        ("nodes", getOr vd "nodes" (.arr [])),
        ("fix_available", getOr vd "fixAvailable" (.bool false)),
        ("type", .str "vulnerability")]

/-- The block of `all_matches` records one result entry contributes, in
order: its vulnerability records if it is a `package_scan` entry, its
finding records otherwise, nothing if it is skipped. -/
def recordMatches : Json → List Json
  | .obj kvs =>
    if isPackageScan (objGet kvs "rulename" (.str "unknown")) then
      (itemsD (objGet kvs "vulnerabilities" (.obj []))).map
        (fun kv => vulnD (objGet kvs "rulename" (.str "unknown")) kv.1 kv.2)
    else
      (iterD (objGet kvs "matches" (.arr []))).map
        (findingD (objGet kvs "rulename" (.str "unknown")))
  | _ => []

/-- One entry's effect on `findings_by_rule`: the rule's count is set to
`len(matches)` (line 55); non-dict entries leave the dict unchanged. -/
def specFbrStep (d : List (Json × Nat)) : Json → List (Json × Nat)
  | .obj kvs =>
    dictSet d (objGet kvs "rulename" (.str "unknown"))
      (lenD (objGet kvs "matches" (.arr [])))
  | _ => d

/-- The `len(matches)` of the *last* entry carrying the given rule name
(later entries win), or `none` if no entry carries it: what last-write-wins
makes `findings_by_rule` hold. -/
def specLastLen (rn : Json) : List Json → Option Nat
  | [] => none
  | r :: rs =>
    match specLastLen rn rs with
    | some n => some n
    | none =>
      match r with
      | .obj kvs =>
        if pyKeyEq (objGet kvs "rulename" (.str "unknown")) rn then
          some (lenD (objGet kvs "matches" (.arr [])))
        else none
      | _ => none

/-- The severity-bucket summary one `package_scan` entry writes
(lines 77-85), built totally. -/
def vsOf (kvs : List (String × Json)) : VulnSummary :=
  VulnSummary.mk
    (getOr (getOr (objGet kvs "metadata" (.obj [])) "vulnerabilities" (.obj [])) "info" (.num 0))
    (getOr (getOr (objGet kvs "metadata" (.obj [])) "vulnerabilities" (.obj [])) "low" (.num 0))
    (getOr (getOr (objGet kvs "metadata" (.obj [])) "vulnerabilities" (.obj [])) "moderate" (.num 0))
    (getOr (getOr (objGet kvs "metadata" (.obj [])) "vulnerabilities" (.obj [])) "high" (.num 0))
    (getOr (getOr (objGet kvs "metadata" (.obj [])) "vulnerabilities" (.obj [])) "critical" (.num 0))
    (getOr (getOr (objGet kvs "metadata" (.obj [])) "vulnerabilities" (.obj [])) "total" (.num 0))

/-- The `vulnerability_summary` one entry writes: `some` only for a
`package_scan` entry. -/
def specVS1 : Json → Option VulnSummary
  | .obj kvs =>
    if isPackageScan (objGet kvs "rulename" (.str "unknown")) then
      some (vsOf kvs)
    else none
  | _ => none

/-- `vulnerability_summary` accumulated across entries: each `package_scan`
entry overwrites it, so the last one wins. -/
def vsUpd (acc : Option VulnSummary) : List Json → Option VulnSummary
  | [] => acc
  | r :: rs =>
    vsUpd (match specVS1 r with | some x => some x | none => acc) rs

/-- The final `vulnerability_summary`: that of the last `package_scan`
entry, or `none` if there is none. -/
def specVS (rs : List Json) : Option VulnSummary := vsUpd none rs

/-- The warnings the loop logs: exactly one per non-dict entry, in order. -/
def specWarnings : List Json → List Effect
  | [] => []
  | .obj _ :: rs => specWarnings rs
  | _ :: rs => Effect.logWarning :: specWarnings rs

/-- Is the value a dict? -/
def isObjB : Json → Bool
  | .obj _ => true
  | _ => false

/-- Does `len(v)` succeed? -/
def lenOK : Json → Bool
  | .str _ => true
  | .arr _ => true
  | .obj _ => true
  | _ => false

/-- Is the value hashable (usable as a dict key)? -/
def hashableB : Json → Bool
  | .arr _ => false
  | .obj _ => false
  | _ => true

/-- A `matches` element the code can process: a dict whose present
`start`/`extra` fields are dicts. -/
def wfMatch : Json → Bool
  | .obj kvs =>
    isObjB (objGet kvs "start" (.obj [])) &&
      isObjB (objGet kvs "extra" (.obj []))
  | _ => false

/-- A result entry the loop is guaranteed to process without raising: either
not a dict (it is skipped), or a dict whose present fields carry the
conventional shapes — `matches` measurable and (for non-package rules) a
sequence of processable elements, `rulename` hashable, and for
`package_scan` a dict `vulnerabilities` with dict values and a dict
`metadata.vulnerabilities` chain. -/
def wfRecord : Json → Bool
  | .obj kvs =>
    lenOK (objGet kvs "matches" (.arr [])) &&
    hashableB (objGet kvs "rulename" (.str "unknown")) &&
    (if isPackageScan (objGet kvs "rulename" (.str "unknown")) then
      isObjB (objGet kvs "vulnerabilities" (.obj [])) &&
      (itemsD (objGet kvs "vulnerabilities" (.obj []))).all
        (fun kv => isObjB kv.2) &&
      isObjB (objGet kvs "metadata" (.obj [])) &&
      isObjB (getOr (objGet kvs "metadata" (.obj [])) "vulnerabilities" (.obj []))
    else
      (iterD (objGet kvs "matches" (.arr []))).all wfMatch)
  | _ => true

/-! ## Concrete values used in witnesses and counterexamples -/

/-- A concrete model of `json.loads` fixed on the documents consulted in
the double-encoding theorems, agreeing with Python's `json.loads` there:
the text `{}` decodes to the empty object, and the text `"{}"` (a JSON
string literal) decodes to the two-character string `{}`. -/
def loadsTable : String → Except PyErr Json := fun s =>
  if s = "\x7b\x7d" then .ok (.obj [])
  else if s = "\"\x7b\x7d\"" then .ok (.str "\x7b\x7d")
  else .error .valueError

/-- The spec's Scenario B input: one `package_scan` entry with a single
`lodash` vulnerability and a severity-count metadata block. -/
def inputB : Json :=
  .arr [.obj
    [("rulename", .str "package_scan"),
     ("vulnerabilities", .obj
       [("lodash", .obj
         [("severity", .str "high"), ("isDirect", .bool true),
          ("fixAvailable", .bool true)])]),
     ("metadata", .obj
       [("vulnerabilities", .obj [("high", .num 1), ("total", .num 1)])])]]

/-- A mixed input used by witnesses: a finding entry, a skipped non-dict
entry, a `package_scan` entry, and a second entry reusing the rule name
`eqeq` with an empty `matches` list. -/
def wInput : Json :=
  .arr [.obj
    [("rulename", .str "eqeq"),
     ("matches", .arr [.obj
       [("path", .str "a.py"), ("start", .obj [("line", .num 5)]),
        ("extra", .obj
          [("lines", .str "x==y"), ("message", .str "use is")])]])],
    .num 7,
    .obj
    [("rulename", .str "package_scan"),
     ("vulnerabilities", .obj
       [("lodash", .obj [("severity", .str "high")])]),
     ("metadata", .obj
       [("vulnerabilities", .obj [("high", .num 1)])])],
    .obj [("rulename", .str "eqeq"), ("matches", .arr [])]]

/-- The blocks of `all_matches` records contributed by a list of entries,
concatenated in entry order. -/
def specMatchesList : List Json → List Json
  | [] => []
  | r :: rs => recordMatches r ++ specMatchesList rs

/-- The summary `reduce_results` builds for `wInput` (used as the concrete
run in witnesses). -/
def wSummary : Summary :=
  { total_findings := 1,
    findings_by_rule := [(.str "eqeq", 0), (.str "package_scan", 0)],
    all_matches :=
      [.obj [("rule", .str "eqeq"), ("path", .str "a.py"), ("line", .num 5),
             ("snippet", .str "x==y"), ("message", .str "use is"),
             ("type", .str "finding")],
       .obj [("rule", .str "package_scan"), ("package", .str "lodash"),
             ("severity", .str "high"), ("is_direct", .bool false),
             ("via", .arr []), ("effects", .arr []),
             ("version_range", .str ""), ("nodes", .arr []),
             ("fix_available", .bool false), ("type", .str "vulnerability")]],
    vulnerability_summary :=
      some (VulnSummary.mk (.num 0) (.num 0) (.num 0) (.num 1) (.num 0)
        (.num 0)) }

/-! ## Helper lemmas: successful steps agree with the total spec-side
functions, and well-shaped records always succeed -/

theorem ok_bind {α β : Type} (a : α) (f : α → Except PyErr β) :
    (Except.ok a >>= f) = f a := rfl

theorem error_bind {α β : Type} (e : PyErr) (f : α → Except PyErr β) :
    ((Except.error e : Except PyErr α) >>= f) = Except.error e := rfl

theorem pyGet_ok {v : Json} {k : String} {d x : Json}
    (h : v.pyGet k d = .ok x) : x = getOr v k d := by
  cases v <;> simp [Json.pyGet] at h <;> simp [getOr, objGet, h]

theorem processVuln_ok {rn : Json} {pkg : String} {vd x : Json}
    (h : processVuln rn pkg vd = .ok x) : x = vulnD rn pkg vd := by
  cases vd with
  | obj kvs =>
    simp only [processVuln, Json.pyGet, ok_bind] at h
    simp only [Except.ok.injEq] at h
    simp [← h, vulnD, getOr, objGet]
  | _ => simp [processVuln, Json.pyGet, error_bind] at h

theorem processMatch_ok {rn m x : Json} (h : processMatch rn m = .ok x) :
    x = findingD rn m := by
  cases m with
  | obj kvs =>
    cases hs : (List.lookup "start" kvs).getD (Json.obj []) <;>
    cases he : (List.lookup "extra" kvs).getD (Json.obj []) <;>
      simp only [processMatch, Json.pyGet, ok_bind, error_bind, hs, he,
        Except.ok.injEq] at h <;>
      first
      | exact (Except.noConfusion h)
      | simp [findingD, getOr, objGet, hs, he, ← h]
  | null => simp [processMatch, Json.pyGet, error_bind] at h
  | bool b => simp [processMatch, Json.pyGet, error_bind] at h
  | num n => simp [processMatch, Json.pyGet, error_bind] at h
  | str s => simp [processMatch, Json.pyGet, error_bind] at h
  | arr xs => simp [processMatch, Json.pyGet, error_bind] at h

theorem pyLen_ok {v : Json} {n : Nat} (h : v.pyLen = .ok n) : n = lenD v := by
  cases v <;> simp [Json.pyLen] at h <;> simp [lenD, h]

theorem pyIter_ok {v : Json} {l : List Json} (h : v.pyIter = .ok l) :
    l = iterD v := by
  cases v <;> simp [Json.pyIter] at h <;> simp [iterD, h]

theorem pyItems_ok {v : Json} {l : List (String × Json)}
    (h : v.pyItems = .ok l) : l = itemsD v := by
  cases v <;> simp [Json.pyItems] at h <;> simp [itemsD, h]

theorem mapExceptList_ok {α β : Type} {f : α → Except PyErr β} {g : α → β}
    (hfg : ∀ a b, f a = .ok b → b = g a) :
    ∀ {l : List α} {ys : List β}, mapExceptList f l = .ok ys → ys = l.map g := by
  intro l
  induction l with
  | nil => intro ys h; simp [mapExceptList] at h; simp [h]
  | cons a l ih =>
    intro ys h
    simp only [mapExceptList] at h
    cases hfa : f a with
    | error e => rw [hfa] at h; exact (Except.noConfusion h)
    | ok b =>
      rw [hfa] at h
      cases hl : mapExceptList f l with
      | error e => rw [hl] at h; exact (Except.noConfusion h)
      | ok bs =>
        rw [hl] at h
        simp only [Except.ok.injEq] at h
        simp [← h, hfg a b hfa, ih hl]

theorem processResult_ok {s s' : Summary} {r : Json} {effs : List Effect}
    (h : processResult s r = (effs, .ok s')) :
    effs = specWarnings [r] ∧
    s'.total_findings = s.total_findings + lenD (matchesOf r) ∧
    s'.findings_by_rule = specFbrStep s.findings_by_rule r ∧
    s'.all_matches = s.all_matches ++ recordMatches r ∧
    s'.vulnerability_summary =
      (match specVS1 r with
       | some x => some x
       | none => s.vulnerability_summary) := by
  cases r with
  | obj kvs =>
    simp only [processResult] at h
    rw [Prod.mk.injEq] at h
    obtain ⟨heffs, hres⟩ := h
    cases hlen : (objGet kvs "matches" (Json.arr [])).pyLen with
    | error e => rw [hlen] at hres; exact (Except.noConfusion hres)
    | ok n =>
    rw [hlen] at hres
    cases hh : checkHashable (objGet kvs "rulename" (Json.str "unknown")) with
    | error e => rw [hh] at hres; exact (Except.noConfusion hres)
    | ok u =>
    rw [hh] at hres
    simp only [ok_bind] at hres
    cases hpkg : isPackageScan (objGet kvs "rulename" (Json.str "unknown")) with
    | true =>
      rw [hpkg] at hres
      simp only [if_true, reduceIte] at hres
      cases hitems : (objGet kvs "vulnerabilities" (Json.obj [])).pyItems with
      | error e => rw [hitems] at hres; exact (Except.noConfusion hres)
      | ok items =>
      rw [hitems] at hres
      simp only [ok_bind] at hres
      cases hmap : mapExceptList
          (fun kv => processVuln (objGet kvs "rulename" (Json.str "unknown")) kv.1 kv.2)
          items with
      | error e => rw [hmap] at hres; exact (Except.noConfusion hres)
      | ok vmatches =>
      rw [hmap] at hres
      simp only [ok_bind] at hres
      cases hmdv : (objGet kvs "metadata" (Json.obj [])).pyGet "vulnerabilities" (Json.obj []) with
      | error e => rw [hmdv] at hres; exact (Except.noConfusion hres)
      | ok mdv =>
      rw [hmdv] at hres
      simp only [ok_bind] at hres
      cases mdv with
      | obj mkvs =>
        simp only [Json.pyGet, ok_bind, Except.ok.injEq] at hres
        have hvm : vmatches = items.map
            (fun kv => vulnD (objGet kvs "rulename" (Json.str "unknown")) kv.1 kv.2) :=
          mapExceptList_ok (fun a b hab => processVuln_ok hab) hmap
        have hit : items = itemsD (objGet kvs "vulnerabilities" (Json.obj [])) :=
          pyItems_ok hitems
        have hmd : (Json.obj mkvs) = getOr (objGet kvs "metadata" (Json.obj [])) "vulnerabilities" (Json.obj []) :=
          pyGet_ok hmdv
        have hn : n = lenD (objGet kvs "matches" (Json.arr [])) := pyLen_ok hlen
        simp only [getOr, objGet] at hmd hpkg
        refine ⟨by simp [heffs.symm, specWarnings], ?_, ?_, ?_, ?_⟩ <;>
          simp only [← hres] <;>
          simp [matchesOf, specFbrStep, recordMatches, specVS1, hpkg, hn,
            hvm, hit, vsOf, ← hmd, getOr, objGet]
      | null => simp [Json.pyGet, error_bind] at hres
      | bool b => simp [Json.pyGet, error_bind] at hres
      | num m => simp [Json.pyGet, error_bind] at hres
      | str t => simp [Json.pyGet, error_bind] at hres
      | arr xs => simp [Json.pyGet, error_bind] at hres
    | false =>
      rw [hpkg] at hres
      simp only [Bool.false_eq_true, if_false, reduceIte] at hres
      cases hiter : (objGet kvs "matches" (Json.arr [])).pyIter with
      | error e => rw [hiter] at hres; exact (Except.noConfusion hres)
      | ok elems =>
      rw [hiter] at hres
      simp only [ok_bind] at hres
      cases hmap : mapExceptList (processMatch (objGet kvs "rulename" (Json.str "unknown"))) elems with
      | error e => rw [hmap] at hres; exact (Except.noConfusion hres)
      | ok fmatches =>
      rw [hmap] at hres
      simp only [ok_bind, Except.ok.injEq] at hres
      have hfm : fmatches = elems.map (findingD (objGet kvs "rulename" (Json.str "unknown"))) :=
        mapExceptList_ok (fun a b hab => processMatch_ok hab) hmap
      have hel : elems = iterD (objGet kvs "matches" (Json.arr [])) := pyIter_ok hiter
      have hn : n = lenD (objGet kvs "matches" (Json.arr [])) := pyLen_ok hlen
      simp only [objGet] at hpkg
      refine ⟨by simp [heffs.symm, specWarnings], ?_, ?_, ?_, ?_⟩ <;>
        simp only [← hres] <;>
        simp [matchesOf, specFbrStep, recordMatches, specVS1, hpkg, hn, hfm, hel,
          getOr, objGet]
  | null =>
    simp only [processResult, Prod.mk.injEq, Except.ok.injEq] at h
    obtain ⟨he, hs2⟩ := h
    subst hs2
    exact ⟨by simp [he.symm, specWarnings], by simp [matchesOf, lenD],
      by simp [specFbrStep], by simp [recordMatches], by simp [specVS1]⟩
  | bool b =>
    simp only [processResult, Prod.mk.injEq, Except.ok.injEq] at h
    obtain ⟨he, hs2⟩ := h
    subst hs2
    exact ⟨by simp [he.symm, specWarnings], by simp [matchesOf, lenD],
      by simp [specFbrStep], by simp [recordMatches], by simp [specVS1]⟩
  | num m =>
    simp only [processResult, Prod.mk.injEq, Except.ok.injEq] at h
    obtain ⟨he, hs2⟩ := h
    subst hs2
    exact ⟨by simp [he.symm, specWarnings], by simp [matchesOf, lenD],
      by simp [specFbrStep], by simp [recordMatches], by simp [specVS1]⟩
  | str t =>
    simp only [processResult, Prod.mk.injEq, Except.ok.injEq] at h
    obtain ⟨he, hs2⟩ := h
    subst hs2
    exact ⟨by simp [he.symm, specWarnings], by simp [matchesOf, lenD],
      by simp [specFbrStep], by simp [recordMatches], by simp [specVS1]⟩
  | arr xs =>
    simp only [processResult, Prod.mk.injEq, Except.ok.injEq] at h
    obtain ⟨he, hs2⟩ := h
    subst hs2
    exact ⟨by simp [he.symm, specWarnings], by simp [matchesOf, lenD],
      by simp [specFbrStep], by simp [recordMatches], by simp [specVS1]⟩

theorem specTotal_cons (r : Json) (rs : List Json) :
    specTotal (r :: rs) = lenD (matchesOf r) + specTotal rs := by
  simp [specTotal]

theorem specWarnings_cons (r : Json) (rs : List Json) :
    specWarnings (r :: rs) = specWarnings [r] ++ specWarnings rs := by
  cases r <;> simp [specWarnings]

theorem processList_ok :
    ∀ {rs : List Json} {s s' : Summary} {effs : List Effect},
      processList s rs = (effs, .ok s') →
      s'.total_findings = s.total_findings + specTotal rs ∧
      s'.findings_by_rule = rs.foldl specFbrStep s.findings_by_rule ∧
      s'.all_matches = s.all_matches ++ specMatchesList rs ∧
      s'.vulnerability_summary = vsUpd s.vulnerability_summary rs ∧
      effs = specWarnings rs := by
  intro rs
  induction rs with
  | nil =>
    intro s s' effs h
    simp only [processList, Prod.mk.injEq, Except.ok.injEq] at h
    obtain ⟨he, hs⟩ := h
    subst hs
    simp [he.symm, specTotal, specMatchesList, vsUpd, specWarnings]
  | cons r rs ih =>
    intro s s' effs h
    simp only [processList] at h
    rcases hpr : processResult s r with ⟨effs1, res1⟩
    rw [hpr] at h
    cases res1 with
    | error e =>
      rw [Prod.mk.injEq] at h
      exact (Except.noConfusion h.2)
    | ok s1 =>
      dsimp only at h
      rcases hpl : processList s1 rs with ⟨effs2, res2⟩
      rw [hpl] at h
      dsimp only at h
      rw [Prod.mk.injEq] at h
      obtain ⟨he, hres⟩ := h
      cases res2 with
      | error e => exact (Except.noConfusion hres)
      | ok s2 =>
        injection hres with hres
        subst hres
        obtain ⟨hw1, ht1, hf1, ha1, hv1⟩ := processResult_ok hpr
        obtain ⟨ht2, hf2, ha2, hv2, hw2⟩ := ih hpl
        refine ⟨?_, ?_, ?_, ?_, ?_⟩
        · rw [ht2, ht1, specTotal_cons, Nat.add_assoc]
        · rw [hf2, hf1]; rfl
        · rw [ha2, ha1, specMatchesList, List.append_assoc]
        · rw [hv2, hv1]; rfl
        · rw [he.symm, hw1, hw2]; cases r <;> simp [specWarnings]

theorem reduceCore_ok {v : Json} {s : Summary} {effs : List Effect}
    (h : reduceCore v = (effs, .ok s)) :
    s.total_findings = specTotal (listify v) ∧
    s.findings_by_rule = (listify v).foldl specFbrStep [] ∧
    s.all_matches = specMatchesList (listify v) ∧
    s.vulnerability_summary = specVS (listify v) ∧
    effs = specWarnings (listify v) := by
  obtain ⟨ht, hf, ha, hv, hw⟩ := processList_ok h
  exact ⟨by simpa [initSummary] using ht, by simpa [initSummary] using hf,
    by simpa [initSummary] using ha, by simpa [initSummary, specVS] using hv, hw⟩

theorem pyKeyEq_trans {a b c : Json} (h1 : pyKeyEq a b = true)
    (h2 : pyKeyEq b c = true) : pyKeyEq a c = true := by
  unfold pyKeyEq at h1 h2 ⊢
  cases ha : a.keyRep <;> cases hb : b.keyRep <;> cases hc : c.keyRep <;>
    simp_all

theorem pyKeyEq_symm {a b : Json} (h : pyKeyEq a b = true) :
    pyKeyEq b a = true := by
  unfold pyKeyEq at h ⊢
  cases ha : a.keyRep <;> cases hb : b.keyRep <;> simp_all [eq_comm]

theorem dictGet_dictSet (d : List (Json × Nat)) (k rn : Json) (n : Nat) :
    dictGet (dictSet d k n) rn =
      if pyKeyEq k rn then some n else dictGet d rn := by
  induction d with
  | nil => simp [dictSet, dictGet]
  | cons p rest ih =>
    obtain ⟨k', v'⟩ := p
    by_cases hk : pyKeyEq k' k = true
    · simp only [dictSet, hk, if_true, reduceIte, dictGet]
      by_cases hkr : pyKeyEq k rn = true
      · have : pyKeyEq k' rn = true := pyKeyEq_trans hk hkr
        simp [this, hkr]
      · have : pyKeyEq k' rn = false := by
          by_contra hcon
          simp only [Bool.not_eq_false] at hcon
          exact hkr (pyKeyEq_trans (pyKeyEq_symm hk) hcon)
        simp [this, hkr, dictGet]
    · simp only [Bool.not_eq_true] at hk
      simp only [dictSet, hk, Bool.false_eq_true, if_false, reduceIte, dictGet]
      by_cases hkr : pyKeyEq k' rn = true
      · have : pyKeyEq k rn = false := by
          by_contra hcon
          simp only [Bool.not_eq_false] at hcon
          have := pyKeyEq_trans hkr (pyKeyEq_symm hcon)
          simp [this] at hk
        simp [hkr, this]
      · simp only [Bool.not_eq_true] at hkr
        simp [hkr, ih]

theorem dictGet_foldl_fbr (rs : List Json) :
    ∀ (d : List (Json × Nat)) (rn : Json),
      dictGet (rs.foldl specFbrStep d) rn =
        (match specLastLen rn rs with
         | some n => some n
         | none => dictGet d rn) := by
  induction rs with
  | nil => intro d rn; simp [specLastLen]
  | cons r rs ih =>
    intro d rn
    rw [List.foldl_cons, ih]
    cases r with
    | obj kvs =>
      simp only [specLastLen, specFbrStep]
      cases hll : specLastLen rn rs with
      | some n => rfl
      | none =>
        rw [dictGet_dictSet]
        by_cases hk : pyKeyEq (objGet kvs "rulename" (Json.str "unknown")) rn = true
        · simp [hk]
        · simp only [Bool.not_eq_true] at hk
          simp [hk]
    | null => simp only [specLastLen, specFbrStep]; cases specLastLen rn rs <;> rfl
    | bool b => simp only [specLastLen, specFbrStep]; cases specLastLen rn rs <;> rfl
    | num m => simp only [specLastLen, specFbrStep]; cases specLastLen rn rs <;> rfl
    | str t => simp only [specLastLen, specFbrStep]; cases specLastLen rn rs <;> rfl
    | arr xs => simp only [specLastLen, specFbrStep]; cases specLastLen rn rs <;> rfl

theorem recordMatches_length (r : Json) :
    (recordMatches r).length = specCount1 r := by
  cases r <;> simp only [recordMatches, specCount1] <;>
    first
    | rfl
    | (split <;> simp)

theorem specMatchesList_length (rs : List Json) :
    (specMatchesList rs).length = (rs.map specCount1).sum := by
  induction rs with
  | nil => simp [specMatchesList]
  | cons r rs ih => simp [specMatchesList, recordMatches_length, ih]

theorem recordMatches_fields {r m : Json} (hm : m ∈ recordMatches r) :
    getOr m "rule" .null = ruleOf r ∧
    (getOr m "type" .null = .str "finding" ∨
      getOr m "type" .null = .str "vulnerability") := by
  cases r with
  | obj kvs =>
    simp only [recordMatches] at hm
    split at hm
    · obtain ⟨kv, hkv, rfl⟩ := List.mem_map.mp hm
      constructor
      · simp [vulnD, getOr, objGet, ruleOf, List.lookup]
      · right; simp [vulnD, getOr, objGet, List.lookup]
    · obtain ⟨e, he, rfl⟩ := List.mem_map.mp hm
      constructor
      · simp [findingD, getOr, objGet, ruleOf, List.lookup]
      · left; simp [findingD, getOr, objGet, List.lookup]
  | null => simp [recordMatches] at hm
  | bool b => simp [recordMatches] at hm
  | num n => simp [recordMatches] at hm
  | str t => simp [recordMatches] at hm
  | arr xs => simp [recordMatches] at hm

theorem pyLen_wf {v : Json} (h : lenOK v = true) : v.pyLen = .ok (lenD v) := by
  cases v <;> simp_all [lenOK, Json.pyLen, lenD]

theorem pyIter_wf {v : Json} (h : lenOK v = true) : v.pyIter = .ok (iterD v) := by
  cases v <;> simp_all [lenOK, Json.pyIter, iterD]

theorem checkHashable_wf {v : Json} (h : hashableB v = true) :
    checkHashable v = .ok () := by
  cases v <;> simp_all [hashableB, checkHashable]

theorem processVuln_wf {rn : Json} {pkg : String} {vd : Json}
    (h : isObjB vd = true) : processVuln rn pkg vd = .ok (vulnD rn pkg vd) := by
  cases vd with
  | obj kvs => simp [processVuln, Json.pyGet, ok_bind, vulnD, getOr, objGet]
  | null => simp [isObjB] at h
  | bool b => simp [isObjB] at h
  | num n => simp [isObjB] at h
  | str t => simp [isObjB] at h
  | arr xs => simp [isObjB] at h

theorem processMatch_wf {rn m : Json} (h : wfMatch m = true) :
    processMatch rn m = .ok (findingD rn m) := by
  cases m with
  | obj kvs =>
    simp only [wfMatch, Bool.and_eq_true] at h
    obtain ⟨hs, he⟩ := h
    simp only [objGet] at hs he
    cases hst : (List.lookup "start" kvs).getD (Json.obj []) <;>
      rw [hst] at hs <;> simp only [isObjB, Bool.false_eq_true] at hs
    cases hee : (List.lookup "extra" kvs).getD (Json.obj []) <;>
      rw [hee] at he <;> simp only [isObjB, Bool.false_eq_true] at he
    simp [processMatch, Json.pyGet, ok_bind, findingD, getOr, objGet, hst, hee]
  | null => simp [wfMatch] at h
  | bool b => simp [wfMatch] at h
  | num n => simp [wfMatch] at h
  | str t => simp [wfMatch] at h
  | arr xs => simp [wfMatch] at h

theorem mapExceptList_wf {α β : Type} {f : α → Except PyErr β} {g : α → β} :
    ∀ {l : List α}, (∀ a ∈ l, f a = .ok (g a)) →
      mapExceptList f l = .ok (l.map g) := by
  intro l
  induction l with
  | nil => intro _; simp [mapExceptList]
  | cons a l ih =>
    intro h
    simp only [mapExceptList]
    rw [h a (by simp), ih (fun b hb => h b (by simp [hb]))]
    simp

theorem processResult_wf {r : Json} (h : wfRecord r = true) (s : Summary) :
    ∃ s', processResult s r = (specWarnings [r], .ok s') := by
  cases r with
  | obj kvs =>
    simp only [wfRecord, Bool.and_eq_true] at h
    obtain ⟨⟨hlen, hhash⟩, hbr⟩ := h
    simp only [processResult, specWarnings]
    rw [pyLen_wf hlen]
    simp only [ok_bind]
    rw [checkHashable_wf hhash]
    simp only [ok_bind]
    rcases Bool.eq_false_or_eq_true
        (isPackageScan (objGet kvs "rulename" (Json.str "unknown"))) with hpkg | hpkg
    case inl =>
      rw [hpkg] at hbr ⊢
      try simp only [if_true, reduceIte] at hbr ⊢
      simp only [Bool.and_eq_true] at hbr
      obtain ⟨⟨⟨hvo, hva⟩, hmo⟩, hmvo⟩ := hbr
      cases hvc : objGet kvs "vulnerabilities" (Json.obj []) <;>
        rw [hvc] at hvo hva <;> simp only [isObjB, Bool.false_eq_true] at hvo
      rename_i vkvs
      simp only [Json.pyItems, ok_bind]
      simp only [itemsD, List.all_eq_true] at hva
      rw [mapExceptList_wf (fun kv hkv => processVuln_wf (hva kv hkv))]
      simp only [ok_bind]
      cases hmc : objGet kvs "metadata" (Json.obj []) <;>
        rw [hmc] at hmo hmvo <;> simp only [isObjB, Bool.false_eq_true] at hmo
      rename_i mdkvs
      simp only [Json.pyGet, ok_bind]
      simp only [getOr, objGet] at hmvo
      cases hmvc : (List.lookup "vulnerabilities" mdkvs).getD (Json.obj []) <;>
        rw [hmvc] at hmvo <;> simp only [isObjB, Bool.false_eq_true] at hmvo
      rename_i mv
      simp only [Json.pyGet, ok_bind]
      exact ⟨_, rfl⟩
    case inr =>
      rw [hpkg] at hbr ⊢
      try simp only [Bool.false_eq_true, if_false, reduceIte] at hbr ⊢
      rw [pyIter_wf hlen]
      simp only [ok_bind]
      simp only [List.all_eq_true] at hbr
      rw [mapExceptList_wf (fun m hm => processMatch_wf (hbr m hm))]
      simp only [ok_bind]
      exact ⟨_, rfl⟩
  | null => exact ⟨s, by simp [processResult, specWarnings]⟩
  | bool b => exact ⟨s, by simp [processResult, specWarnings]⟩
  | num n => exact ⟨s, by simp [processResult, specWarnings]⟩
  | str t => exact ⟨s, by simp [processResult, specWarnings]⟩
  | arr xs => exact ⟨s, by simp [processResult, specWarnings]⟩

theorem processList_wf :
    ∀ {rs : List Json}, (∀ r ∈ rs, wfRecord r = true) →
      ∀ s : Summary, ∃ s', processList s rs = (specWarnings rs, .ok s') := by
  intro rs
  induction rs with
  | nil => intro _ s; exact ⟨s, by simp [processList, specWarnings]⟩
  | cons r rs ih =>
    intro h s
    obtain ⟨s1, h1⟩ := processResult_wf (h r (by simp)) s
    obtain ⟨s2, h2⟩ := ih (fun x hx => h x (by simp [hx])) s1
    refine ⟨s2, ?_⟩
    simp only [processList, h1]
    simp only [h2]
    cases r <;> simp [specWarnings]

/-- `splitOnChar` never returns the empty list (Python `split` always
yields at least one piece). -/
theorem splitOnChar_ne_nil (c : Char) (l : List Char) :
    splitOnChar c l ≠ [] := by
  cases l with
  | nil => simp [splitOnChar]
  | cons x xs =>
    simp only [splitOnChar]
    by_cases hx : x = c
    · simp [hx]
    · simp only [hx, if_false, reduceIte]
      cases splitOnChar c xs <;> simp

/-- The first piece of `split` is the run of characters before the first
separator. -/
theorem splitOnChar_headD (c : Char) :
    ∀ l : List Char,
      (splitOnChar c l).headD [] = l.takeWhile (fun x => x != c) := by
  intro l
  induction l with
  | nil => rfl
  | cons x xs ih =>
    simp only [splitOnChar]
    by_cases hx : x = c
    · simp [hx, List.takeWhile_cons]
    · cases hs : splitOnChar c xs with
      | nil => exact absurd hs (splitOnChar_ne_nil c xs)
      | cons h t =>
        rw [hs] at ih
        simp only [List.headD_cons] at ih
        simp [hx, List.takeWhile_cons, ih]

/-- `takeWhile (· != c)` keeps a list that does not contain `c` whole. -/
theorem takeWhile_of_not_mem {c : Char} :
    ∀ {l : List Char}, c ∉ l → l.takeWhile (fun x => x != c) = l := by
  intro l
  induction l with
  | nil => intro _; rfl
  | cons x xs ih =>
    intro h
    simp only [List.mem_cons, not_or] at h
    have hx : (x != c) = true := by
      simp only [bne_iff_ne]
      exact fun hc => h.1 hc.symm
    simp [List.takeWhile_cons, hx, ih h.2]

/-! ## The claims -/

/-- C1: for every input whose top-level JSON value is processed to
completion, the returned summary's `total_findings` equals the sum of
`len(matches)` over all dict-shaped result entries (`matches` defaulting to
the empty list when absent), including `package_scan` entries; vulnerability
records never contribute to `total_findings`. -/
theorem C1_total_findings_is_sum_of_matches (v : Json) (effs : List Effect)
    (s : Summary) (h : reduceCore v = (effs, .ok s)) :
    s.total_findings = specTotal (listify v) :=
  (reduceCore_ok h).1

/-- C1 witness: the concrete mixed input `wInput` is processed to the
concrete summary `wSummary`, whose `total_findings` is the matches sum. -/
theorem C1_witness :
    reduceCore wInput = ([Effect.logWarning], .ok wSummary) ∧
    wSummary.total_findings = specTotal (listify wInput) :=
  ⟨rfl, C1_total_findings_is_sum_of_matches wInput [Effect.logWarning]
    wSummary rfl⟩

/-- C2: for every processed input, the length of `all_matches` equals the
number of match records across all non-`package_scan` entries plus the
number of entries in the `vulnerabilities` mapping across all `package_scan`
entries (the `matches` of `package_scan` entries are not appended). -/
theorem C2_all_matches_length (v : Json) (effs : List Effect) (s : Summary)
    (h : reduceCore v = (effs, .ok s)) :
    s.all_matches.length = ((listify v).map specCount1).sum := by
  rw [(reduceCore_ok h).2.2.1, specMatchesList_length]

/-- C2 witness: on `wInput`, `all_matches` has length `2` — one finding
from the `eqeq` entry plus one vulnerability from the `package_scan`
entry. -/
theorem C2_witness :
    wSummary.all_matches.length = ((listify wInput).map specCount1).sum ∧
    wSummary.all_matches.length = 2 :=
  ⟨C2_all_matches_length wInput [Effect.logWarning] wSummary rfl, rfl⟩

/-- C3: a failed read or top-level JSON parse is logged and re-raised, and
neither the output directory nor either output file is created. -/
theorem C3_read_failure_no_output (path ts : String)
    (loads : String → Except PyErr Json) (e : PyErr) :
    reduce_results path ts loads (.error e) =
      ([.logInfo, .logError], .error e) ∧
    Effect.mkdir ∉ (reduce_results path ts loads (.error e)).1 ∧
    ∀ name, Effect.writeFile name ∉ (reduce_results path ts loads (.error e)).1 := by
  refine ⟨rfl, ?_, ?_⟩ <;> simp [reduce_results]

/-- C4 counterexample: a successfully read input whose single record is a
dict with a non-list `matches` (`[{"matches": 5}]`) raises `TypeError`
(`len(5)`), so a per-record malformation *is* surfaced as an exception —
the run aborts with only the initial info log, no warning, no output. -/
theorem C4_counterexample :
    reduce_results "f.json" "ts" loadsTable
      (Except.ok (.arr [.obj [("matches", .num 5)]])) =
      ([.logInfo], .error .typeError) := rfl

/-- C4 (amended): an element of the parsed list that is not a dict is
non-fatal — it is skipped with exactly one warning log and processing
continues to completion — and a run over entries whose dict-shaped records
carry conventionally typed fields succeeds; but a dict record with a
mistyped field raises, which propagates. -/
theorem C4_nondict_records_skipped_with_warning (v : Json)
    (h : ∀ r ∈ listify v, wfRecord r = true) :
    ∃ s : Summary, reduceCore v = (specWarnings (listify v), .ok s) :=
  processList_wf h initSummary

/-- C4 witness: `wInput` contains a non-dict entry (`7`) between
well-shaped records; the run completes with exactly one warning. -/
theorem C4_witness :
    ∃ s : Summary, reduceCore wInput = (specWarnings (listify wInput), .ok s) :=
  C4_nondict_records_skipped_with_warning wInput (by decide)

/-- C5 counterexample: for the underscore-free filename `myserver.json`,
`server_name` is the whole filename `myserver.json`, not the stem
`myserver` claimed by the spec. -/
theorem C5_counterexample :
    serverName "myserver.json" = "myserver.json" ∧
    serverName "myserver.json" ≠ "myserver" := by
  exact ⟨rfl, by decide⟩

/-- C5 (amended): `server_name` is the substring of the basename before the
first `_`; for a basename containing no `_` it is the *entire* basename,
extension included. -/
theorem C5_server_name_prefix_of_basename (p : String) :
    serverName p =
      String.mk (((splitOnChar '/' p.data).getLastD []).takeWhile
        (fun c => c != '_')) ∧
    ('_' ∉ (pyBasename p).data → serverName p = pyBasename p) := by
  have hhead := splitOnChar_headD '_' ((splitOnChar '/' p.data).getLastD [])
  constructor
  · exact congrArg String.mk hhead
  · intro hn
    have : (((splitOnChar '/' p.data).getLastD []).takeWhile
        (fun c => c != '_')) = (splitOnChar '/' p.data).getLastD [] :=
      takeWhile_of_not_mem hn
    calc serverName p
        = String.mk (((splitOnChar '/' p.data).getLastD []).takeWhile
            (fun c => c != '_')) := congrArg String.mk hhead
      _ = String.mk ((splitOnChar '/' p.data).getLastD []) :=
            congrArg String.mk this
      _ = pyBasename p := rfl

/-- C5 witness: a path with directory and timestamp (`dir/myserver_2024.json`
→ `myserver`), and an underscore-free basename kept whole. -/
theorem C5_witness :
    serverName "dir/myserver_2024.json" =
      String.mk ((( splitOnChar '/'
        ("dir/myserver_2024.json" : String).data).getLastD []).takeWhile
        (fun c => c != '_')) ∧
    serverName "results/myserver.json" = pyBasename "results/myserver.json" :=
  ⟨(C5_server_name_prefix_of_basename "dir/myserver_2024.json").1,
   (C5_server_name_prefix_of_basename "results/myserver.json").2 (by decide)⟩

/-- C6: a single JSON object as the whole input produces exactly the same
result (summary and effect trace) as the one-element array holding it —
the non-list value is wrapped at lines 43-44. -/
theorem C6_single_object_like_singleton_list
    (loads : String → Except PyErr Json) (kvs : List (String × Json)) :
    reduceLoaded loads (.obj kvs) = reduceLoaded loads (.arr [.obj kvs]) :=
  rfl

/-- C7 counterexample: the unwrap-once rule breaks the double-encoding
equivalence when the document is itself a JSON string.  Take `d` the JSON
string with text `{}`: the file holding `d`'s serialization as its string
value decodes to `d` and then stops (one unwrap), treating the string `{}`
as a (skipped) record, while the file holding `d` itself decodes the string
`{}` a second time into the empty object, which is processed as a record —
the two summaries differ. -/
theorem C7_counterexample :
    loadsTable (Json.serialize (Json.str "\x7b\x7d")) =
      Except.ok (Json.str "\x7b\x7d") ∧
    (reduceLoaded loadsTable
        (Json.str (Json.serialize (Json.str "\x7b\x7d")))).2 ≠
      (reduceLoaded loadsTable (Json.str "\x7b\x7d")).2 := by
  refine ⟨rfl, ?_⟩
  intro hcon
  have h1 : (Except.ok (Summary.mk 0 [] [] none) : Except PyErr Summary) =
      Except.ok (Summary.mk 0 [(Json.str "unknown", 0)] [] none) := hcon
  have h2 := congrArg (fun r => match r with
    | Except.ok s => s.findings_by_rule.length
    | Except.error _ => 0) h1
  simp at h2

/-- C7 (amended): for every document `d` that is *not* itself a JSON string
and whose serialization decodes back to `d`, the double-encoded input (the
JSON string holding `d`'s serialization) produces exactly the same result
as `d` itself — the second decode is applied exactly once. -/
theorem C7_double_encoded_like_plain (loads : String → Except PyErr Json)
    (d : Json) (hrt : loads (Json.serialize d) = Except.ok d)
    (hstr : ∀ t, d ≠ Json.str t) :
    reduceLoaded loads (.str (Json.serialize d)) = reduceLoaded loads d := by
  cases d with
  | str t => exact absurd rfl (hstr t)
  | null => simp [reduceLoaded, unwrapStr, hrt]
  | bool b => simp [reduceLoaded, unwrapStr, hrt]
  | num n => simp [reduceLoaded, unwrapStr, hrt]
  | arr xs => simp [reduceLoaded, unwrapStr, hrt]
  | obj kvs => simp [reduceLoaded, unwrapStr, hrt]

/-- C7 witness: the empty object round-trips through `loadsTable`, and its
double-encoded form reduces identically. -/
theorem C7_witness :
    reduceLoaded loadsTable (.str (Json.serialize (Json.obj []))) =
      reduceLoaded loadsTable (Json.obj []) :=
  C7_double_encoded_like_plain loadsTable (Json.obj []) rfl
    (fun t h => Json.noConfusion h)

/-- C8: when the same rule name appears in several entries,
`findings_by_rule` holds the match count of the *last* such entry only
(last-write-wins, not summed), and `vulnerability_summary` holds the
severity counts of the *last* `package_scan` entry's metadata only. -/
theorem C8_last_write_wins (v : Json) (effs : List Effect) (s : Summary)
    (h : reduceCore v = (effs, .ok s)) :
    (∀ rn : Json, dictGet s.findings_by_rule rn = specLastLen rn (listify v)) ∧
    s.vulnerability_summary = specVS (listify v) := by
  obtain ⟨-, hf, -, hv, -⟩ := reduceCore_ok h
  refine ⟨?_, hv⟩
  intro rn
  rw [hf, dictGet_foldl_fbr]
  cases specLastLen rn (listify v) <;> simp [dictGet]

/-- C8 witness: in `wInput` the rule `eqeq` appears twice (first with one
match, then with zero); the summary records the last count, `0`. -/
theorem C8_witness :
    dictGet wSummary.findings_by_rule (.str "eqeq") =
      specLastLen (.str "eqeq") (listify wInput) ∧
    dictGet wSummary.findings_by_rule (.str "eqeq") = some 0 ∧
    wSummary.vulnerability_summary = specVS (listify wInput) :=
  ⟨(C8_last_write_wins wInput [Effect.logWarning] wSummary rfl).1
      (.str "eqeq"),
   rfl,
   (C8_last_write_wins wInput [Effect.logWarning] wSummary rfl).2⟩

/-- C9: the spec's Scenario B — one `package_scan` entry with a single
`lodash` vulnerability of severity `high` and metadata counts
`{high: 1, total: 1}` — yields exactly one vulnerability record in
`all_matches`, the severity buckets `info 0, low 0, moderate 0, high 1,
critical 0, total 1`, `findings_by_rule` mapping `package_scan` to `0`
(the `matches` list is absent), and `total_findings = 0`. -/
theorem C9_scenario_b :
    reduceCore inputB = ([], .ok (Summary.mk 0
      [(.str "package_scan", 0)]
      [.obj [("rule", .str "package_scan"), ("package", .str "lodash"),
             ("severity", .str "high"), ("is_direct", .bool true),
             ("via", .arr []), ("effects", .arr []),
             ("version_range", .str ""), ("nodes", .arr []),
             ("fix_available", .bool true),
             ("type", .str "vulnerability")]]
      (some (VulnSummary.mk (.num 0) (.num 0) (.num 0) (.num 1) (.num 0)
        (.num 1))))) := rfl

/-- C10: `all_matches` is exactly the concatenation, in input order, of the
per-entry record blocks, and every record carries a `type` field equal to
`"finding"` or `"vulnerability"` and a `rule` field equal to the rule name
of the entry it came from. -/
theorem C10_all_matches_shape (v : Json) (effs : List Effect) (s : Summary)
    (h : reduceCore v = (effs, .ok s)) :
    s.all_matches = specMatchesList (listify v) ∧
    ∀ r ∈ listify v, ∀ m ∈ recordMatches r,
      getOr m "rule" .null = ruleOf r ∧
      (getOr m "type" .null = .str "finding" ∨
        getOr m "type" .null = .str "vulnerability") :=
  ⟨(reduceCore_ok h).2.2.1, fun r _ m hm => recordMatches_fields hm⟩

/-- C10 witness: the shape property instantiated on the concrete run over
`wInput`. -/
theorem C10_witness :
    wSummary.all_matches = specMatchesList (listify wInput) ∧
    ∀ r ∈ listify wInput, ∀ m ∈ recordMatches r,
      getOr m "rule" .null = ruleOf r ∧
      (getOr m "type" .null = .str "finding" ∨
        getOr m "type" .null = .str "vulnerability") :=
  C10_all_matches_shape wInput [Effect.logWarning] wSummary rfl
